import Mathlib

/-!  Verification model of the run_the_jules data ingestion engine.

The definitions below are a shallow embedding of the backend ingestion code:
BaseConnector, LimitlessConnector, BeeConnector (src/backend/services/dataIngestion)
and DataProcessor (src/backend/services/processing), against the schema of init.sql.
Instants are milliseconds since the Unix epoch; JS Invalid Date is `none`;
database tables are association lists; the JS runtime behaviours that matter
(truthiness of values, exceptions from toISOString on an Invalid Date, the
ReferenceError caused by the commented-out db require in DataProcessor.js)
are modelled explicitly where the code depends on them. -/

namespace RTJ

/-- Raw timestamp value as delivered by a source API: either a string that
new Date parses to the instant t (milliseconds since epoch), or a string it
cannot parse.  A present timestamp string is assumed non-empty, hence truthy
in JS conditionals. -/
inductive TsVal where
  | valid (t : Int)
  | invalid
deriving DecidableEq, Repr

/-- JS `a || b` over optional raw timestamp values (a present value is truthy). -/
def tsOr (a b : Option TsVal) : Option TsVal :=
  match a with
  | some v => some v
  | none => b

/-- JS `new Date(x)` for an optional raw value: an absent or unparsable input
yields an Invalid Date, modelled as `none`; the `isNaN(d.getTime())` test of
the source corresponds to `Option.isNone`. -/
def jsDate : Option TsVal → Option Int
  | some (TsVal.valid t) => some t
  | _ => none

/-- JS `a || b` over optional strings, where the empty string is falsy. -/
def strOr (a b : Option String) : Option String :=
  match a with
  | some s => if s = "" then b else some s
  | none => b

/-- JS truthiness of an optional string (undefined and the empty string are falsy). -/
def strTruthy : Option String → Bool
  | some s => s != ""
  | none => false

/-- JS `a || b` over optional numbers, where 0 is falsy. -/
def numOr (a b : Option Int) : Option Int :=
  match a with
  | some v => if v = 0 then b else some v
  | none => b

/-- JS `a || b || false` over optional booleans (false is falsy), as used for
flag fields: the result is true exactly when some present value is true. -/
def flagOr (a b : Option Bool) : Bool :=
  match a with
  | some true => true
  | _ =>
    match b with
    | some true => true
    | _ => false

/-- Per-batch outcome counters returned by processData
(newEntries, updatedEntries, errors in the source). -/
structure Counts where
  newEntries : Nat
  updatedEntries : Nat
  errors : Nat
deriving DecidableEq, Repr

/-- Result shape of BaseConnector.sync as seen by callers. -/
structure SyncResult where
  success : Bool
  newEntries : Nat
  updatedEntries : Nat
  errors : Nat
deriving DecidableEq, Repr

/-- One row of the daily_aggregations table (presence flags and counts; the
schema defaults of init.sql are false and 0). -/
structure AggRow where
  has_limitless_data : Bool
  has_bee_data : Bool
  has_weather_data : Bool
  has_mood_data : Bool
  limitless_entry_count : Int
  bee_conversation_count : Int
deriving DecidableEq, Repr

def emptyAggRow : AggRow :=
  { has_limitless_data := false, has_bee_data := false, has_weather_data := false,
    has_mood_data := false, limitless_entry_count := 0, bee_conversation_count := 0 }

/-- The daily_aggregations table, keyed by UTC calendar day.  A day is
represented by its index `Int.fdiv t 86400000`, which is in bijection with the
YYYY-MM-DD string produced by `toISOString` in the source. -/
abbrev AggStore := List (Int × AggRow)

def lookupAgg : AggStore → Int → Option AggRow
  | [], _ => none
  | (k, v) :: rest, key => if k = key then some v else lookupAgg rest key

def updateAgg : AggStore → Int → AggRow → AggStore
  | [], _, _ => []
  | (k, v) :: rest, key, nv =>
    if k = key then (k, nv) :: updateAgg rest key nv else (k, v) :: updateAgg rest key nv

/-- UTC calendar day index of an instant, standing for the date part of
`toISOString` in the source. -/
def dayIdx (t : Int) : Int := Int.fdiv t 86400000

/-- The date argument of DataProcessor.updateDailyAggregation: absent or empty
(falsy), a present value that `new Date(date)` cannot parse, or a value parsing
to the UTC day `day`. -/
inductive DateArg where
  | missing
  | unparsable (s : String)
  | parsed (day : Int)
deriving DecidableEq, Repr

/-- DataProcessor.updateDailyAggregation (DataProcessor.js lines 66 to 125).
The require of DatabaseManager at the top of the module is commented out, so
the `db.query` call inside the try block raises a ReferenceError that the
surrounding catch absorbs: the aggregation store is never modified.  A present
but unparsable date makes `new Date(date).toISOString()` (line 73) throw a
RangeError before the try block, and that exception propagates to the caller. -/
def updateDailyAggregation (aggs : AggStore) (date : DateArg) (sourceType : Option String)
    (itemCount : Int) : Except String AggStore :=
  if date = DateArg.missing ∨ strTruthy sourceType = false then Except.ok aggs
  else
    match date with
    | DateArg.missing => Except.ok aggs
    | DateArg.unparsable _ => Except.error "RangeError: Invalid time value"
    | DateArg.parsed _ =>
      match sourceType, itemCount with
      | some "limitless", _ => Except.ok aggs
      | some "bee", _ => Except.ok aggs
      | some "weather", _ => Except.ok aggs
      | some "mood", _ => Except.ok aggs
      | _, _ => Except.ok aggs

/-- The SQL upsert that updateDailyAggregation builds (DataProcessor.js lines
103 to 118), as it would act on daily_aggregations if the db handle were
available: insert a fresh row carrying the presence flag and the count
max(itemCount, 0), and on conflict set the flag and merge the count with
GREATEST(COALESCE(stored, 0), excluded). -/
def dailyAggregationSqlUpsert (aggs : AggStore) (day : Int) (sourceType : String)
    (itemCount : Int) : AggStore :=
  let cnt : Int := if itemCount > 0 then itemCount else 0
  let step : AggRow → AggRow := fun r =>
    match sourceType with
    | "limitless" =>
      { r with has_limitless_data := true,
               limitless_entry_count := max r.limitless_entry_count cnt }
    | "bee" =>
      { r with has_bee_data := true,
               bee_conversation_count := max r.bee_conversation_count cnt }
    | "weather" => { r with has_weather_data := true }
    | "mood" => { r with has_mood_data := true }
    | _ => r
  match lookupAgg aggs day with
  | some r => updateAgg aggs day (step r)
  | none => aggs ++ [(day, step emptyAggRow)]

/-! Limitless connector: data shapes (LimitlessConnector.js). -/

/-- Raw payload fields of one content node as delivered by the Limitless API
(`typ` stands for the raw field named type). -/
structure CNodeData where
  node_type : Option String
  typ : Option String
  content : Option String
  text : Option String
  start_time : Option TsVal
  end_time : Option TsVal
  start_offset_ms : Option Int
  startOffsetMs : Option Int
  end_offset_ms : Option Int
  endOffsetMs : Option Int
  speaker_name : Option String
  speakerName : Option String
  speaker_identifier : Option String
  speakerIdentifier : Option String
deriving Repr

/-- A raw content node: its payload and its children array. -/
inductive CNode where
  | mk (data : CNodeData) (children : List CNode)

def CNode.data : CNode → CNodeData
  | CNode.mk d _ => d

def CNode.children : CNode → List CNode
  | CNode.mk _ cs => cs

/-- One raw lifelog record as returned by the Limitless API, with every
alternate field name the connector consults. -/
structure Lifelog where
  id : Option String
  title : Option String
  markdown_content : Option String
  start_time : Option TsVal
  startTime : Option TsVal
  created_at : Option TsVal
  end_time : Option TsVal
  endTime : Option TsVal
  updated_at : Option TsVal
  is_starred : Option Bool
  isStarred : Option Bool
  contents : Option (List CNode)

/-- One row of limitless_entries (init.sql); dbId models the serial id
returned by the upsert. -/
structure LEntryRow where
  dbId : Nat
  title : Option String
  markdown_content : Option String
  start_time : Int
  end_time : Int
  is_starred : Bool
deriving DecidableEq, Repr

/-- One row of limitless_content_nodes (init.sql).  The table has no
uniqueness constraint beyond the generated primary key. -/
structure NodeRow where
  dbId : Nat
  entry_id : Nat
  parent_id : Option Nat
  node_type : String
  content : Option String
  start_time : Option Int
  end_time : Option Int
  start_offset_ms : Option Int
  end_offset_ms : Option Int
  speaker_name : Option String
  speaker_identifier : Option String
deriving DecidableEq, Repr

/-- Backend state visible to the Limitless connector: the limitless_entries
table keyed by limitless_id, the limitless_content_nodes table, the
daily_aggregations table, the last_sync_time_limitless watermark row of
system_metadata (epoch 0 when absent), and the next generated row id. -/
structure LState where
  entries : List (String × LEntryRow)
  nodes : List NodeRow
  aggs : AggStore
  wm : Int
  nextId : Nat
deriving Repr

def lookupA {β : Type} : List (String × β) → String → Option β
  | [], _ => none
  | (k, v) :: rest, key => if k = key then some v else lookupA rest key

def updateA {β : Type} : List (String × β) → String → β → List (String × β)
  | [], _, _ => []
  | (k, v) :: rest, key, nv =>
    if k = key then (k, nv) :: updateA rest key nv else (k, v) :: updateA rest key nv

/-- `new Date(lifelog.start_time || lifelog.startTime || lifelog.created_at)`
(LimitlessConnector.js line 114). -/
def lifelogStart (l : Lifelog) : Option Int :=
  jsDate (tsOr l.start_time (tsOr l.startTime l.created_at))

/-- `new Date(lifelog.end_time || lifelog.endTime || lifelog.updated_at)`
(LimitlessConnector.js line 115). -/
def lifelogEnd (l : Lifelog) : Option Int :=
  jsDate (tsOr l.end_time (tsOr l.endTime l.updated_at))

/-- `lifelog.contents?.find(c => c.type === markdown)?.content`. -/
def findMarkdownContent : List CNode → Option String
  | [] => none
  | CNode.mk d _ :: rest =>
    if d.typ = some "markdown" then d.content else findMarkdownContent rest

/-- The record passing the validation of LimitlessConnector.processData lines
121 to 130: truthy limitless_id and both primary timestamps parseable
(`entry.start_time` and `entry.end_time` are Date objects, hence truthy; only
the isNaN checks can reject them). -/
def lifelogValid (l : Lifelog) : Bool :=
  strTruthy l.id && (lifelogStart l).isSome && (lifelogEnd l).isSome

/-- The entry object built for a valid lifelog (LimitlessConnector.js lines
110 to 118), with the instants already validated and the database id of the
row it lands in. -/
def entryFromLifelog (l : Lifelog) (s e : Int) (dbId : Nat) : LEntryRow :=
  { dbId := dbId,
    title := l.title,
    markdown_content :=
      strOr l.markdown_content
        (match l.contents with
         | some cs => findMarkdownContent cs
         | none => none),
    start_time := s,
    end_time := e,
    is_starred := flagOr l.is_starred l.isStarred }

/-- A content node whose present timestamps all parse.  When a present
start_time or end_time is unparsable, the Invalid Date makes toISOString throw
while the insert parameters are built; the per-node catch absorbs it and the
node, with its children, is skipped. -/
def nodeTsOk (d : CNodeData) : Bool :=
  d.start_time != some TsVal.invalid && d.end_time != some TsVal.invalid

/-- The limitless_content_nodes row inserted for one raw node
(LimitlessConnector.js lines 203 to 231). -/
def nodeRowOf (d : CNodeData) (entryId : Nat) (parentId : Option Nat) (dbId : Nat) : NodeRow :=
  { dbId := dbId,
    entry_id := entryId,
    parent_id := parentId,
    node_type := (strOr d.node_type d.typ).getD "unknown",
    content := strOr d.content d.text,
    start_time := match d.start_time with | some v => jsDate (some v) | none => none,
    end_time := match d.end_time with | some v => jsDate (some v) | none => none,
    start_offset_ms := numOr d.start_offset_ms d.startOffsetMs,
    end_offset_ms := numOr d.end_offset_ms d.endOffsetMs,
    speaker_name := strOr d.speaker_name d.speakerName,
    speaker_identifier := strOr d.speaker_identifier d.speakerIdentifier }

mutual

/-- LimitlessConnector.processContentNodes, one node: insert the row with a
fresh id, then recurse into the children with the new id as parent.  A node
whose timestamps fail to serialize is skipped together with its children. -/
def insertContentNode (entryId : Nat) (parentId : Option Nat) (st : LState) : CNode → LState
  | CNode.mk d children =>
    if nodeTsOk d then
      let dbId := st.nextId
      let st1 : LState :=
        { st with nodes := st.nodes ++ [nodeRowOf d entryId parentId dbId],
                  nextId := st.nextId + 1 }
      if children.isEmpty then st1
      else insertContentNodes entryId (some dbId) st1 children
    else st

/-- LimitlessConnector.processContentNodes over a sibling list, in source
order. -/
def insertContentNodes (entryId : Nat) (parentId : Option Nat) (st : LState) :
    List CNode → LState
  | [] => st
  | n :: rest => insertContentNodes entryId parentId (insertContentNode entryId parentId st n) rest

end

/-- Process one lifelog (the body of the for loop of
LimitlessConnector.processData, lines 107 to 169): validate, upsert into
limitless_entries keyed on limitless_id reporting insert versus update, then
materialize the content nodes.  Each record adds exactly one to one of the
three counters. -/
def processLifelog (st : LState) (c : Counts) (l : Lifelog) : LState × Counts :=
  match l.id, lifelogStart l, lifelogEnd l with
  | some key, some s, some e =>
    if key = "" then (st, { c with errors := c.errors + 1 })
    else
      match lookupA st.entries key with
      | some old =>
        let row := entryFromLifelog l s e old.dbId
        let st1 : LState := { st with entries := updateA st.entries key row }
        let st2 :=
          match l.contents with
          | some cs => insertContentNodes old.dbId none st1 cs
          | none => st1
        (st2, { c with updatedEntries := c.updatedEntries + 1 })
      | none =>
        let dbId := st.nextId
        let row := entryFromLifelog l s e dbId
        let st1 : LState :=
          { st with entries := st.entries ++ [(key, row)], nextId := st.nextId + 1 }
        let st2 :=
          match l.contents with
          | some cs => insertContentNodes dbId none st1 cs
          | none => st1
        (st2, { c with newEntries := c.newEntries + 1 })
  | _, _, _ => (st, { c with errors := c.errors + 1 })

/-- The record loop of LimitlessConnector.processData. -/
def processLifelogs : LState → Counts → List Lifelog → LState × Counts
  | st, c, [] => (st, c)
  | st, c, l :: rest =>
    let r := processLifelog st c l
    processLifelogs r.1 r.2 rest

/-- `new Date(item.updated_at || item.created_at || item.end_time || 0)` used
for the watermark candidate (LimitlessConnector.js line 174). -/
def lifelogWmTime (l : Lifelog) : Option Int :=
  jsDate (tsOr l.updated_at (tsOr l.created_at (tsOr l.end_time (some (TsVal.valid 0)))))

/-- The reduce of lines 173 to 176: the latest valid candidate instant, with
NaN comparisons false, starting from the epoch. -/
def latestEntryTime (lifelogs : List Lifelog) : Int :=
  lifelogs.foldl
    (fun latest l =>
      match lifelogWmTime l with
      | some t => if t > latest then t else latest
      | none => latest)
    0

/-- One step of the per-date loop of LimitlessConnector.processData lines 184
to 192: count the records on the date and hand them to
DataProcessor.updateDailyAggregation.  For a parseable date that call always
returns without effect (its db handle is missing and the ReferenceError is
swallowed), so the error branch is unreachable. -/
def limitlessAggStep (lifelogs : List Lifelog) (s : LState) (d : Int) : LState :=
  let entriesOnDate :=
    (lifelogs.filter (fun l => (lifelogStart l).map dayIdx = some d)).length
  if entriesOnDate > 0 then
    match updateDailyAggregation s.aggs (DateArg.parsed d) (some "limitless")
        (Int.ofNat entriesOnDate) with
    | Except.ok a => { s with aggs := a }
    | Except.error _ => s
  else s

/-- LimitlessConnector.processData (lines 97 to 198).  After the record loop,
when at least one upsert succeeded: the watermark is overwritten with the
latest candidate instant when that is past the epoch, the affected dates are
computed with `new Date(start expression).toISOString()` over the whole batch
(throwing a RangeError as soon as one record has an unparsable start), and the
daily aggregation is updated per affected day.  The returned value carries the
mutated state together with either the counts or the propagated exception. -/
def limitlessProcessData (st : LState) (lifelogs : List Lifelog) :
    LState × Except String Counts :=
  if lifelogs.isEmpty then (st, Except.ok { newEntries := 0, updatedEntries := 0, errors := 0 })
  else
    let r := processLifelogs st { newEntries := 0, updatedEntries := 0, errors := 0 } lifelogs
    let st1 := r.1
    let c := r.2
    if c.newEntries > 0 ∨ c.updatedEntries > 0 then
      let latest := latestEntryTime lifelogs
      let st2 := if latest > 0 then { st1 with wm := latest } else st1
      if lifelogs.all (fun l => (lifelogStart l).isSome) then
        let days := lifelogs.foldl
          (fun acc l =>
            match (lifelogStart l).map dayIdx with
            | some d => if acc.contains d then acc else acc ++ [d]
            | none => acc)
          []
        let st3 := days.foldl (limitlessAggStep lifelogs) st2
        (st3, Except.ok c)
      else (st2, Except.error "RangeError: Invalid time value")
    else (st1, Except.ok c)

/-! Pagination walkers (BeeConnector.fetchPaginatedData and the fetch loop of
LimitlessConnector.fetchData). -/

/-- One page of the Limitless lifelogs endpoint: the items plus
`response.data.nextCursor || response.data.pagination?.next_cursor`. -/
structure LPage (α : Type) where
  items : List α
  nextCursor : Option String
deriving Repr

/-- The body of the pagination loop of BeeConnector.fetchPaginatedData (lines
88 to 135): fetch the given page; on a fetch error stop and keep the
accumulated data (the catch only sets keepFetching to false); on an empty page
stop; otherwise accumulate, stop when the page is short of the limit, bump the
page counter and stop when it passes the maxPages safety bound. -/
def beeWalkAux {α : Type} (fetch : Nat → Except String (List α)) (limit maxPages : Nat)
    (page : Nat) (acc : List α) : List α :=
  match fetch page with
  | Except.error _ => acc
  | Except.ok items =>
    if items.isEmpty then acc
    else
      let acc2 := acc ++ items
      if items.length < limit then acc2
      else if _h : maxPages < page + 1 then acc2
      else beeWalkAux fetch limit maxPages (page + 1) acc2
termination_by maxPages + 1 - page
decreasing_by omega

/-- BeeConnector.fetchPaginatedData for one data type, starting at page 1 with
the default limit 50 and safety bound maxPages 10. -/
def beeWalk {α : Type} (fetch : Nat → Except String (List α)) (limit maxPages : Nat) :
    List α :=
  beeWalkAux fetch limit maxPages 1 []

/-- The body of the do-while loop of LimitlessConnector.fetchData (lines 45 to
82): fetch at the current cursor (a fetch error is rethrown, discarding the
accumulation); an empty page breaks; otherwise accumulate and take the next
cursor; break when the cursor is null and the page is short of the limit; bump
the page counter and break past the maxPages bound; finally the do-while
condition exits when the cursor is null. -/
def limitlessWalkAux {α : Type} (fetch : Option String → Except String (LPage α))
    (limit maxPages : Nat) (page : Nat) (cursor : Option String) (acc : List α) :
    Except String (List α) :=
  match fetch cursor with
  | Except.error e => Except.error e
  | Except.ok resp =>
    if resp.items.isEmpty then Except.ok acc
    else
      let acc2 := acc ++ resp.items
      if resp.nextCursor.isNone && resp.items.length < limit then Except.ok acc2
      else if _h : maxPages < page + 1 then Except.ok acc2
      else
        match resp.nextCursor with
        | none => Except.ok acc2
        | some cur => limitlessWalkAux fetch limit maxPages (page + 1) (some cur) acc2
termination_by maxPages + 1 - page
decreasing_by omega

/-- The pagination loop of LimitlessConnector.fetchData, starting at page 1
with no cursor, default limit 50 and maxPages 10. -/
def limitlessWalk {α : Type} (fetch : Option String → Except String (LPage α))
    (limit maxPages : Nat) : Except String (List α) :=
  limitlessWalkAux fetch limit maxPages 1 none []

/-- BaseConnector.sync specialized to the Limitless connector: fetchData runs
the pagination loop (rethrowing any fetch error), then processData runs on the
fetched batch; an exception from either is caught and reported as a failed
result with zero new and updated entries and one error, while state mutations
already performed by processData remain. -/
def limitlessSync (fetch : Option String → Except String (LPage Lifelog)) (st : LState) :
    LState × SyncResult :=
  match limitlessWalk fetch 50 10 with
  | Except.error _ =>
    (st, { success := false, newEntries := 0, updatedEntries := 0, errors := 1 })
  | Except.ok lifelogs =>
    match limitlessProcessData st lifelogs with
    | (st1, Except.ok c) =>
      (st1, { success := true, newEntries := c.newEntries,
              updatedEntries := c.updatedEntries, errors := c.errors })
    | (st1, Except.error _) =>
      (st1, { success := false, newEntries := 0, updatedEntries := 0, errors := 1 })

/-! Bee connector: data shapes and processing (BeeConnector.js). -/

/-- One raw utterance under a Bee conversation, with the alternate field names
the connector consults. -/
structure Utt where
  id : Option String
  utterance_id : Option String
  speaker : Option String
  text : Option String
  start_seconds : Option Int
  startOffsetSeconds : Option Int
  end_seconds : Option Int
  endOffsetSeconds : Option Int
  spoken_at : Option TsVal
  timestamp : Option TsVal
  is_realtime : Option Bool
deriving Repr

/-- One raw Bee conversation. -/
structure Convo where
  id : Option String
  start_time : Option TsVal
  startTime : Option TsVal
  end_time : Option TsVal
  endTime : Option TsVal
  updated_at : Option TsVal
  device_type : Option String
  deviceType : Option String
  summary : Option String
  short_summary : Option String
  shortSummary : Option String
  state : Option String
  primary_location : Option String
  transcriptions : Option (List Utt)
  utterances : Option (List Utt)
deriving Repr

/-- One raw Bee fact. -/
structure Fact where
  id : Option String
  content : Option String
  is_confirmed : Option Bool
  updated_at : Option TsVal
  created_at : Option TsVal
deriving Repr

/-- One raw Bee todo. -/
structure Todo where
  id : Option String
  text : Option String
  alarm_at : Option TsVal
  completed : Option Bool
  updated_at : Option TsVal
  created_at : Option TsVal
deriving Repr

/-- One raw Bee location ping. -/
structure BeeLoc where
  id : Option String
  latitude : Option Int
  longitude : Option Int
  address : Option String
  recorded_at : Option TsVal
  timestamp : Option TsVal
  created_at : Option TsVal
deriving Repr

/-- One row of bee_conversations (init.sql), keyed by bee_id in the store. -/
structure ConvoRow where
  dbId : Nat
  start_time : Int
  end_time : Int
  device_type : Option String
  summary : Option String
  short_summary : Option String
  state : Option String
  primary_location : Option String
deriving DecidableEq, Repr

/-- One row of bee_utterances (init.sql); the table carries the uniqueness
constraint on (conversation_id, bee_utterance_id) used by ON CONFLICT DO
NOTHING. -/
structure UttRow where
  conversation_id : Nat
  bee_utterance_id : String
  speaker : Option String
  text : Option String
  start_seconds : Option Int
  end_seconds : Option Int
  spoken_at : Int
  is_realtime : Bool
deriving DecidableEq, Repr

/-- One row of bee_facts. -/
structure FactRow where
  content : Option String
  is_confirmed : Bool
deriving DecidableEq, Repr

/-- One row of bee_todos. -/
structure TodoRow where
  text : Option String
  alarm_at : Option Int
  completed : Bool
deriving DecidableEq, Repr

/-- One row of bee_locations. -/
structure LocRow where
  latitude : Int
  longitude : Int
  address : Option String
  recorded_at : Int
deriving DecidableEq, Repr

/-- Backend state visible to the Bee connector: the five tables, the
daily_aggregations table, the last_sync_time_bee watermark (epoch 0 when
absent) and the next generated row id. -/
structure BeeState where
  convos : List (String × ConvoRow)
  utts : List UttRow
  facts : List (String × FactRow)
  todos : List (String × TodoRow)
  locs : List (String × LocRow)
  aggs : AggStore
  wm : Int
  nextId : Nat
deriving Repr

/-- BaseConnector style getTimestamp for a conversation: the first present
field among updated_at, end_time, start_time as a Date, the epoch when none is
present (BeeConnector.js lines 206 to 211 with the field list of line 219). -/
def convoTimestamp (c : Convo) : Option Int :=
  match c.updated_at with
  | some v => jsDate (some v)
  | none =>
    match c.end_time with
    | some v => jsDate (some v)
    | none =>
      match c.start_time with
      | some v => jsDate (some v)
      | none => some 0

/-- getTimestamp for a fact over updated_at, created_at. -/
def factTimestamp (f : Fact) : Option Int :=
  match f.updated_at with
  | some v => jsDate (some v)
  | none =>
    match f.created_at with
    | some v => jsDate (some v)
    | none => some 0

/-- getTimestamp for a todo over updated_at, created_at, alarm_at. -/
def todoTimestamp (t : Todo) : Option Int :=
  match t.updated_at with
  | some v => jsDate (some v)
  | none =>
    match t.created_at with
    | some v => jsDate (some v)
    | none =>
      match t.alarm_at with
      | some v => jsDate (some v)
      | none => some 0

/-- `new Date(loc.recorded_at || loc.timestamp || loc.created_at)`
(BeeConnector.js line 373). -/
def locRecordedAt (l : BeeLoc) : Option Int :=
  jsDate (tsOr l.recorded_at (tsOr l.timestamp l.created_at))

/-- Fold one candidate instant into the running latest, with NaN comparisons
false (`if (itemTimestamp > latestItemTimestamp) ...`). -/
def bumpLatest (latest : Int) (t : Option Int) : Int :=
  match t with
  | some v => if v > latest then v else latest
  | none => latest

/-- The entry object built for one utterance (BeeConnector.js lines 275 to
284), before validation. -/
structure UttEntry where
  conversation_id : Nat
  bee_utterance_id : Option String
  speaker : Option String
  text : Option String
  start_seconds : Option Int
  end_seconds : Option Int
  spoken_at : Option Int
  is_realtime : Bool
deriving DecidableEq, Repr

def mkUtteranceEntry (dbConvoId : Nat) (u : Utt) : UttEntry :=
  { conversation_id := dbConvoId,
    bee_utterance_id := strOr u.id u.utterance_id,
    speaker := u.speaker,
    text := u.text,
    start_seconds := numOr u.start_seconds u.startOffsetSeconds,
    end_seconds := numOr u.end_seconds u.endOffsetSeconds,
    spoken_at := jsDate (tsOr u.spoken_at u.timestamp),
    is_realtime := u.is_realtime.getD true }

/-- BeeConnector.processUtterances: skip an utterance with a falsy id or an
unparsable spoken_at; otherwise insert into bee_utterances with ON CONFLICT
(conversation_id, bee_utterance_id) DO NOTHING. -/
def processUtterances (dbConvoId : Nat) : BeeState → List Utt → BeeState
  | st, [] => st
  | st, u :: rest =>
    let entry := mkUtteranceEntry dbConvoId u
    let st1 :=
      match entry.bee_utterance_id, entry.spoken_at with
      | some k, some t =>
        if k = "" then st
        else if st.utts.any (fun r => r.conversation_id = dbConvoId && r.bee_utterance_id = k)
        then st
        else
          { st with utts := st.utts ++
              [{ conversation_id := dbConvoId, bee_utterance_id := k,
                 speaker := entry.speaker, text := entry.text,
                 start_seconds := entry.start_seconds, end_seconds := entry.end_seconds,
                 spoken_at := t, is_realtime := entry.is_realtime }] }
      | _, _ => st
    processUtterances dbConvoId st1 rest

/-- The entry object built for one conversation (BeeConnector.js lines 222 to
231), before validation; the instants are kept optional so the isNaN checks
can reject them. -/
structure ConvoEntry where
  bee_id : Option String
  start_time : Option Int
  end_time : Option Int
  device_type : Option String
  summary : Option String
  short_summary : Option String
  state : Option String
  primary_location : Option String
deriving DecidableEq, Repr

def mkConvoEntry (cv : Convo) : ConvoEntry :=
  { bee_id := cv.id,
    start_time := jsDate (tsOr cv.start_time cv.startTime),
    end_time := jsDate (tsOr cv.end_time cv.endTime),
    device_type := strOr cv.device_type cv.deviceType,
    summary := cv.summary,
    short_summary := strOr cv.short_summary cv.shortSummary,
    state := cv.state,
    primary_location := cv.primary_location }

/-- The conversation passing the validation of BeeConnector.js line 233. -/
def convoValid (cv : Convo) : Bool :=
  strTruthy cv.id && (jsDate (tsOr cv.start_time cv.startTime)).isSome
    && (jsDate (tsOr cv.end_time cv.endTime)).isSome

/-- The body of the loop of BeeConnector.processConversations (lines 217 to
266): track the latest item timestamp before validation, reject on missing id
or invalid dates, upsert into bee_conversations keyed on bee_id reporting
insert versus update, then process `convo.transcriptions || convo.utterances`. -/
def processConvo (st : BeeState) (c : Counts) (latest : Int) (cv : Convo) :
    BeeState × Counts × Int :=
  let latest1 := bumpLatest latest (convoTimestamp cv)
  let entry := mkConvoEntry cv
  match entry.bee_id, entry.start_time, entry.end_time with
  | some key, some s, some e =>
    if key = "" then (st, { c with errors := c.errors + 1 }, latest1)
    else
      let row : ConvoRow → ConvoRow := fun old =>
        { old with start_time := s, end_time := e, device_type := entry.device_type,
                   summary := entry.summary, short_summary := entry.short_summary,
                   state := entry.state, primary_location := entry.primary_location }
      match lookupA st.convos key with
      | some old =>
        let st1 : BeeState := { st with convos := updateA st.convos key (row old) }
        let st2 :=
          match cv.transcriptions with
          | some us => processUtterances old.dbId st1 us
          | none =>
            match cv.utterances with
            | some us => processUtterances old.dbId st1 us
            | none => st1
        (st2, { c with updatedEntries := c.updatedEntries + 1 }, latest1)
      | none =>
        let dbId := st.nextId
        let nrow : ConvoRow :=
          { dbId := dbId, start_time := s, end_time := e, device_type := entry.device_type,
            summary := entry.summary, short_summary := entry.short_summary,
            state := entry.state, primary_location := entry.primary_location }
        let st1 : BeeState :=
          { st with convos := st.convos ++ [(key, nrow)], nextId := st.nextId + 1 }
        let st2 :=
          match cv.transcriptions with
          | some us => processUtterances dbId st1 us
          | none =>
            match cv.utterances with
            | some us => processUtterances dbId st1 us
            | none => st1
        (st2, { c with newEntries := c.newEntries + 1 }, latest1)
  | _, _, _ => (st, { c with errors := c.errors + 1 }, latest1)

/-- The loop of BeeConnector.processConversations. -/
def processConvosLoop : BeeState → Counts → Int → List Convo → BeeState × Counts × Int
  | st, c, latest, [] => (st, c, latest)
  | st, c, latest, cv :: rest =>
    let r := processConvo st c latest cv
    processConvosLoop r.1 r.2.1 r.2.2 rest

/-- BeeConnector.processConversations: run the loop with the latest item
timestamp starting at the epoch, then return the larger of it and the current
latest timestamp. -/
def processConversations (st : BeeState) (convos : List Convo) (current : Int) :
    BeeState × Counts × Int :=
  let r := processConvosLoop st { newEntries := 0, updatedEntries := 0, errors := 0 } 0 convos
  (r.1, r.2.1, if r.2.2 > current then r.2.2 else current)

/-- The entry object built for one fact (BeeConnector.js lines 319 to 323): a
missing confirmation flag defaults to true. -/
structure FactEntry where
  bee_id : Option String
  content : Option String
  is_confirmed : Bool
deriving DecidableEq, Repr

def mkFactEntry (f : Fact) : FactEntry :=
  { bee_id := f.id, content := f.content, is_confirmed := f.is_confirmed.getD true }

/-- The body of the loop of BeeConnector.processFacts (lines 314 to 333). -/
def processFact (st : BeeState) (c : Counts) (latest : Int) (f : Fact) :
    BeeState × Counts × Int :=
  let latest1 := bumpLatest latest (factTimestamp f)
  let entry := mkFactEntry f
  match entry.bee_id with
  | some key =>
    if key = "" then (st, { c with errors := c.errors + 1 }, latest1)
    else
      let nrow : FactRow := { content := entry.content, is_confirmed := entry.is_confirmed }
      match lookupA st.facts key with
      | some _ =>
        ({ st with facts := updateA st.facts key nrow },
         { c with updatedEntries := c.updatedEntries + 1 }, latest1)
      | none =>
        ({ st with facts := st.facts ++ [(key, nrow)] },
         { c with newEntries := c.newEntries + 1 }, latest1)
  | none => (st, { c with errors := c.errors + 1 }, latest1)

def processFactsLoop : BeeState → Counts → Int → List Fact → BeeState × Counts × Int
  | st, c, latest, [] => (st, c, latest)
  | st, c, latest, f :: rest =>
    let r := processFact st c latest f
    processFactsLoop r.1 r.2.1 r.2.2 rest

def processFacts (st : BeeState) (facts : List Fact) (current : Int) :
    BeeState × Counts × Int :=
  let r := processFactsLoop st { newEntries := 0, updatedEntries := 0, errors := 0 } 0 facts
  (r.1, r.2.1, if r.2.2 > current then r.2.2 else current)

/-- The entry object built for one todo (BeeConnector.js lines 345 to 350):
the alarm is kept as Option Option so that a present but unparsable alarm_at
(an Invalid Date, whose toISOString throws when the query parameters are
built) is distinguished from an absent one. -/
structure TodoEntry where
  bee_id : Option String
  text : Option String
  alarm_at : Option (Option Int)
  completed : Bool
deriving DecidableEq, Repr

def mkTodoEntry (t : Todo) : TodoEntry :=
  { bee_id := t.id,
    text := t.text,
    alarm_at := t.alarm_at.map (fun v => jsDate (some v)),
    completed := flagOr t.completed none }

/-- The body of the loop of BeeConnector.processTodos (lines 340 to 360): a
missing bee_id is rejected; a present unparsable alarm_at throws at parameter
building and the per-record catch counts it as an error. -/
def processTodo (st : BeeState) (c : Counts) (latest : Int) (t : Todo) :
    BeeState × Counts × Int :=
  let latest1 := bumpLatest latest (todoTimestamp t)
  let entry := mkTodoEntry t
  match entry.bee_id with
  | some key =>
    if key = "" then (st, { c with errors := c.errors + 1 }, latest1)
    else
      match entry.alarm_at with
      | some none => (st, { c with errors := c.errors + 1 }, latest1)
      | alarm =>
        let nrow : TodoRow :=
          { text := entry.text, alarm_at := alarm.getD none, completed := entry.completed }
        match lookupA st.todos key with
        | some _ =>
          ({ st with todos := updateA st.todos key nrow },
           { c with updatedEntries := c.updatedEntries + 1 }, latest1)
        | none =>
          ({ st with todos := st.todos ++ [(key, nrow)] },
           { c with newEntries := c.newEntries + 1 }, latest1)
  | none => (st, { c with errors := c.errors + 1 }, latest1)

def processTodosLoop : BeeState → Counts → Int → List Todo → BeeState × Counts × Int
  | st, c, latest, [] => (st, c, latest)
  | st, c, latest, t :: rest =>
    let r := processTodo st c latest t
    processTodosLoop r.1 r.2.1 r.2.2 rest

def processTodos (st : BeeState) (todos : List Todo) (current : Int) :
    BeeState × Counts × Int :=
  let r := processTodosLoop st { newEntries := 0, updatedEntries := 0, errors := 0 } 0 todos
  (r.1, r.2.1, if r.2.2 > current then r.2.2 else current)

/-- The body of the loop of BeeConnector.processLocations (lines 369 to 418):
reject on falsy id, undefined latitude or longitude, or unparsable recorded
instant; otherwise upsert keyed on bee_id (DO UPDATE, so rowCount is always
one and every upsert is counted). -/
def processLoc (st : BeeState) (c : Counts) (latest : Int) (l : BeeLoc) :
    BeeState × Counts × Int :=
  let recordedAt := locRecordedAt l
  let latest1 := bumpLatest latest recordedAt
  match l.id, l.latitude, l.longitude, recordedAt with
  | some key, some lat, some lon, some rec =>
    if key = "" then (st, { c with errors := c.errors + 1 }, latest1)
    else
      let nrow : LocRow :=
        { latitude := lat, longitude := lon, address := l.address, recorded_at := rec }
      match lookupA st.locs key with
      | some _ =>
        ({ st with locs := updateA st.locs key nrow },
         { c with updatedEntries := c.updatedEntries + 1 }, latest1)
      | none =>
        ({ st with locs := st.locs ++ [(key, nrow)] },
         { c with newEntries := c.newEntries + 1 }, latest1)
  | _, _, _, _ => (st, { c with errors := c.errors + 1 }, latest1)

def processLocsLoop : BeeState → Counts → Int → List BeeLoc → BeeState × Counts × Int
  | st, c, latest, [] => (st, c, latest)
  | st, c, latest, l :: rest =>
    let r := processLoc st c latest l
    processLocsLoop r.1 r.2.1 r.2.2 rest

def processLocations (st : BeeState) (locs : List BeeLoc) (current : Int) :
    BeeState × Counts × Int :=
  let r := processLocsLoop st { newEntries := 0, updatedEntries := 0, errors := 0 } 0 locs
  (r.1, r.2.1, if r.2.2 > current then r.2.2 else current)

/-- The object returned by BeeConnector.fetchData. -/
structure BeeData where
  conversations : List Convo
  facts : List Fact
  todos : List Todo
  locations : List BeeLoc

/-- The day expression of BeeConnector.js line 189,
`new Date(c.start_time || c.startTime).toISOString()`, unparsable when the
conversation has no valid start. -/
def convoStartDay (cv : Convo) : Option Int :=
  (jsDate (tsOr cv.start_time cv.startTime)).map dayIdx

/-- The zero counters every processData run starts from. -/
def czero : Counts := { newEntries := 0, updatedEntries := 0, errors := 0 }

/-- One guarded sub-source step of BeeConnector.processData (for example lines
159 to 165): when the sub-list is non-empty, run its processor on the current
state and latest timestamp, add its counters onto the running totals and take
its latest timestamp. -/
def beeStage {γ : Type} (proc : BeeState → List γ → Int → BeeState × Counts × Int)
    (xs : List γ) (r : BeeState × Counts × Int) : BeeState × Counts × Int :=
  if xs.isEmpty then r
  else
    let s := proc r.1 xs r.2.2
    (s.1,
     { newEntries := r.2.1.newEntries + s.2.1.newEntries,
       updatedEntries := r.2.1.updatedEntries + s.2.1.updatedEntries,
       errors := r.2.1.errors + s.2.1.errors },
     s.2.2)

/-- The sequential sub-source phase of BeeConnector.processData (lines 150 to
179): conversations, facts, todos, locations in order, threading the latest
observed timestamp starting from the stored watermark and accumulating the
counters. -/
def beeRunSubs (st : BeeState) (d : BeeData) : BeeState × Counts × Int :=
  beeStage processLocations d.locations
    (beeStage processTodos d.todos
      (beeStage processFacts d.facts
        (beeStage processConversations d.conversations (st, czero, st.wm))))

/-- One step of the per-date loop of BeeConnector.processData lines 193 to
199, analogous to the Limitless one. -/
def beeAggStep (convos : List Convo) (s : BeeState) (day : Int) : BeeState :=
  let convosOnDate := (convos.filter (fun cv => convoStartDay cv = some day)).length
  if convosOnDate > 0 then
    match updateDailyAggregation s.aggs (DateArg.parsed day) (some "bee")
        (Int.ofNat convosOnDate) with
    | Except.ok a => { s with aggs := a }
    | Except.error _ => s
  else s

/-- BeeConnector.processData (lines 140 to 204): run the sub-source phase,
advance the watermark only when the final candidate is strictly later than the
stored value, then compute the affected dates over all conversations (throwing
a RangeError as soon as one has an unparsable start) and update the daily
aggregation per date. -/
def beeProcessData (st : BeeState) (d : BeeData) : BeeState × Except String Counts :=
  let r := beeRunSubs st d
  let latest := r.2.2
  let st5 : BeeState := if latest > st.wm then { r.1 with wm := latest } else r.1
  if d.conversations.all (fun cv => (convoStartDay cv).isSome) then
    let days := d.conversations.foldl
      (fun acc cv =>
        match convoStartDay cv with
        | some day => if acc.contains day then acc else acc ++ [day]
        | none => acc)
      []
    let st6 := days.foldl (beeAggStep d.conversations) st5
    (st6, Except.ok r.2.1)
  else (st5, Except.error "RangeError: Invalid time value")

/-! Concrete inputs used to settle the claims on explicit runs. -/

/-- Fresh Limitless backend state: empty tables, no watermark row (epoch),
first generated id 1. -/
def lSt0 : LState := { entries := [], nodes := [], aggs := [], wm := 0, nextId := 1 }

/-- Limitless backend state whose stored watermark is the instant 100. -/
def lStW : LState := { entries := [], nodes := [], aggs := [], wm := 100, nextId := 1 }

/-- A well-formed lifelog whose latest modification instant is 50. -/
def recW : Lifelog :=
  { id := some "a", title := none, markdown_content := none,
    start_time := some (TsVal.valid 40), startTime := none, created_at := none,
    end_time := some (TsVal.valid 45), endTime := none, updated_at := some (TsVal.valid 50),
    is_starred := none, isStarred := none, contents := none }

/-- First of two batch records sharing the external id 42. -/
def llDupA : Lifelog :=
  { id := some "42", title := some "first", markdown_content := none,
    start_time := some (TsVal.valid 40), startTime := none, created_at := none,
    end_time := some (TsVal.valid 45), endTime := none, updated_at := none,
    is_starred := none, isStarred := none, contents := none }

/-- Second of the two, with different field values. -/
def llDupB : Lifelog := { llDupA with title := some "second" }

/-- A lifelog whose primary start timestamp does not parse. -/
def llBadStart : Lifelog :=
  { id := some "b", title := none, markdown_content := none,
    start_time := some TsVal.invalid, startTime := none, created_at := none,
    end_time := some (TsVal.valid 45), endTime := none, updated_at := none,
    is_starred := none, isStarred := none, contents := none }

/-- A flat content node with no timestamps. -/
def cnFlat : CNodeData :=
  { node_type := none, typ := none, content := some "hello", text := none,
    start_time := none, end_time := none, start_offset_ms := none, startOffsetMs := none,
    end_offset_ms := none, endOffsetMs := none, speaker_name := none, speakerName := none,
    speaker_identifier := none, speakerIdentifier := none }

/-- Fresh Bee backend state. -/
def bSt0 : BeeState :=
  { convos := [], utts := [], facts := [], todos := [], locs := [], aggs := [],
    wm := 0, nextId := 1 }

/-- An utterance whose source omits is_realtime and the offset fields. -/
def uttPlain : Utt :=
  { id := some "u1", utterance_id := none, speaker := some "user", text := some "hi",
    start_seconds := none, startOffsetSeconds := none, end_seconds := none,
    endOffsetSeconds := none, spoken_at := some (TsVal.valid 5), timestamp := none,
    is_realtime := none }

/-- A Bee conversation with one utterance. -/
def cvPlain : Convo :=
  { id := some "c1", start_time := some (TsVal.valid 100), startTime := none,
    end_time := some (TsVal.valid 200), endTime := none,
    updated_at := some (TsVal.valid 300),
    device_type := none, deviceType := none, summary := none, short_summary := none,
    shortSummary := none, state := none, primary_location := none,
    transcriptions := none, utterances := some [uttPlain] }

/-- A Bee fact whose source omits the confirmation flag. -/
def factPlain : Fact :=
  { id := some "f1", content := some "x", is_confirmed := none,
    updated_at := none, created_at := some (TsVal.valid 400) }

/-- A Bee todo whose source omits the completed flag. -/
def todoPlain : Todo :=
  { id := some "t1", text := some "do it", alarm_at := none, completed := none,
    updated_at := none, created_at := some (TsVal.valid 410) }

/-- A Bee batch with one conversation and one fact. -/
def bdPlain : BeeData :=
  { conversations := [cvPlain], facts := [factPlain], todos := [], locations := [] }

/-- A Limitless fetcher whose first page is short of the limit but carries a
next cursor, and whose second page is full with no cursor. -/
def fetchShortWithCursor : Option String → Except String (LPage Nat) :=
  fun c =>
    match c with
    | none => Except.ok { items := List.replicate 12 0, nextCursor := some "a" }
    | some _ => Except.ok { items := List.replicate 50 1, nextCursor := none }

/-- A Bee fetcher returning pages of 50, 50 and 12 items and erroring past
page 3. -/
def fetchBee3 : Nat → Except String (List Nat) :=
  fun p =>
    if p = 1 then Except.ok (List.replicate 50 1)
    else if p = 2 then Except.ok (List.replicate 50 2)
    else if p = 3 then Except.ok (List.replicate 12 3)
    else Except.error "no further page may be requested"

/-- A Limitless fetcher delivering one record with a next cursor, then
failing. -/
def fetchThenFail : Option String → Except String (LPage Lifelog) :=
  fun c =>
    match c with
    | none => Except.ok { items := [recW], nextCursor := some "a" }
    | some _ => Except.error "boom"

/-- A Bee fetcher delivering one full page, then failing. -/
def fetchBeeThenFail : Nat → Except String (List Nat) :=
  fun p => if p = 1 then Except.ok (List.replicate 50 7) else Except.error "boom"

/-- A Limitless fetcher delivering a single page holding one good record and
one record with an unparsable start timestamp. -/
def fetchMixed : Option String → Except String (LPage Lifelog) :=
  fun _ => Except.ok { items := [llDupA, llBadStart], nextCursor := none }

/-- A Limitless fetcher that always fails, standing for a fatal source error
such as rejected authentication. -/
def fetchFatal : Option String → Except String (LPage Lifelog) :=
  fun _ => Except.error "network unreachable"

/-- A Limitless fetcher whose first page already reports a null cursor. -/
def fetchOnePageNat : Option String → Except String (LPage Nat) :=
  fun _ => Except.ok { items := [5], nextCursor := none }

/-! Helper lemmas shared by the claim theorems. -/

theorem lookupA_none_updateA {β : Type} (xs : List (String × β)) (k : String) (nv : β)
    (h : lookupA xs k = none) : updateA xs k nv = xs := by
  induction xs with
  | nil => rfl
  | cons p rest ih =>
    obtain ⟨k1, v1⟩ := p
    by_cases hk : k1 = k
    · simp [lookupA, hk] at h
    · simp [lookupA, hk] at h
      simp [updateA, hk, ih h]

theorem lookupA_append {β : Type} (xs ys : List (String × β)) (k : String)
    (h : lookupA xs k = none) : lookupA (xs ++ ys) k = lookupA ys k := by
  induction xs with
  | nil => rfl
  | cons p rest ih =>
    obtain ⟨k1, v1⟩ := p
    by_cases hk : k1 = k
    · simp [lookupA, hk] at h
    · simp [lookupA, hk] at h ⊢
      exact ih h

theorem updateA_append {β : Type} (xs ys : List (String × β)) (k : String) (nv : β) :
    updateA (xs ++ ys) k nv = updateA xs k nv ++ updateA ys k nv := by
  induction xs with
  | nil => rfl
  | cons p rest ih =>
    obtain ⟨k1, v1⟩ := p
    by_cases hk : k1 = k <;> simp [updateA, hk, ih]

theorem updateDailyAggregation_parsed (a : AggStore) (d : Int) (src : Option String)
    (n : Int) : updateDailyAggregation a (DateArg.parsed d) src n = Except.ok a := by
  unfold updateDailyAggregation
  rcases src with _ | s
  · simp [strTruthy]
  · by_cases hs : s = ""
    · simp [strTruthy, hs]
    · simp only [strTruthy]
      rw [if_neg]
      · split <;> rfl
      · simp [hs]

theorem limitlessAggStep_eq (L : List Lifelog) (s : LState) (d : Int) :
    limitlessAggStep L s d = s := by
  unfold limitlessAggStep
  simp only [updateDailyAggregation_parsed]
  split <;> rfl

theorem beeAggStep_eq (cs : List Convo) (s : BeeState) (d : Int) :
    beeAggStep cs s d = s := by
  unfold beeAggStep
  simp only [updateDailyAggregation_parsed]
  split <;> rfl

theorem foldl_limitlessAggStep (days : List Int) (L : List Lifelog) (st : LState) :
    days.foldl (limitlessAggStep L) st = st := by
  induction days generalizing st with
  | nil => rfl
  | cons d rest ih => simp [List.foldl_cons, limitlessAggStep_eq, ih]

theorem foldl_beeAggStep (days : List Int) (cs : List Convo) (st : BeeState) :
    days.foldl (beeAggStep cs) st = st := by
  induction days generalizing st with
  | nil => rfl
  | cons d rest ih => simp [List.foldl_cons, beeAggStep_eq, ih]

theorem processLifelog_sum (st : LState) (c : Counts) (l : Lifelog) :
    (processLifelog st c l).2.newEntries + (processLifelog st c l).2.updatedEntries
      + (processLifelog st c l).2.errors
    = c.newEntries + c.updatedEntries + c.errors + 1 := by
  unfold processLifelog
  split
  · split
    · simp
      omega
    · split <;> simp <;> omega
  · simp
    omega

theorem processLifelogs_sum (xs : List Lifelog) (st : LState) (c : Counts) :
    (processLifelogs st c xs).2.newEntries + (processLifelogs st c xs).2.updatedEntries
      + (processLifelogs st c xs).2.errors
    = c.newEntries + c.updatedEntries + c.errors + xs.length := by
  induction xs generalizing st c with
  | nil => simp [processLifelogs]
  | cons l rest ih =>
    have h := processLifelog_sum st c l
    simp only [processLifelogs]
    rw [ih]
    simp only [List.length_cons]
    omega

theorem processLifelog_invalid (st : LState) (c : Counts) (l : Lifelog)
    (h : lifelogValid l = false) :
    processLifelog st c l = (st, { c with errors := c.errors + 1 }) := by
  unfold processLifelog
  unfold lifelogValid at h
  cases hid : l.id with
  | none => simp [hid]
  | some key =>
    cases hs : lifelogStart l with
    | none => simp [hs]
    | some s =>
      cases he : lifelogEnd l with
      | none => simp [hs, he]
      | some e =>
        simp [hid, hs, he, strTruthy] at h
        simp [hs, he, h]

theorem processLifelog_valid_counts (st : LState) (c : Counts) (l : Lifelog)
    (h : lifelogValid l = true) :
    (processLifelog st c l).2.errors = c.errors ∧
    (processLifelog st c l).2.newEntries + (processLifelog st c l).2.updatedEntries
      = c.newEntries + c.updatedEntries + 1 := by
  unfold lifelogValid at h
  simp only [Bool.and_eq_true] at h
  obtain ⟨⟨hid, hs⟩, he⟩ := h
  cases hid2 : l.id with
  | none => rw [hid2] at hid; simp [strTruthy] at hid
  | some key =>
    rw [hid2] at hid
    simp [strTruthy] at hid
    obtain ⟨s, hs2⟩ := Option.isSome_iff_exists.mp hs
    obtain ⟨e, he2⟩ := Option.isSome_iff_exists.mp he
    unfold processLifelog
    simp only [hid2, hs2, he2]
    rw [if_neg hid]
    cases hl : lookupA st.entries key <;> simp <;> omega

theorem processLifelog_fst_counts (st : LState) (c c2 : Counts) (l : Lifelog) :
    (processLifelog st c l).1 = (processLifelog st c2 l).1 := by
  unfold processLifelog
  cases hid : l.id with
  | none => simp
  | some key =>
    cases hs : lifelogStart l with
    | none => simp
    | some s =>
      cases he : lifelogEnd l with
      | none => simp
      | some e =>
        by_cases hk : key = ""
        · simp [hk]
        · simp only [if_neg hk]
          cases hl : lookupA st.entries key <;> simp

theorem processLifelogs_errors (xs : List Lifelog) (st : LState) (c : Counts) :
    (processLifelogs st c xs).2.errors
      = c.errors + xs.countP (fun l => !lifelogValid l) := by
  induction xs generalizing st c with
  | nil => simp [processLifelogs]
  | cons l rest ih =>
    simp only [processLifelogs]
    rw [ih]
    by_cases hv : lifelogValid l = true
    · have h := (processLifelog_valid_counts st c l hv).1
      simp [List.countP_cons, hv, h]
    · have hvf : lifelogValid l = false := by simpa using hv
      have h := processLifelog_invalid st c l hvf
      simp [List.countP_cons, hvf, h]
      omega

theorem processLifelogs_filter_fst (xs : List Lifelog) (st : LState) (c c2 : Counts) :
    (processLifelogs st c xs).1
      = (processLifelogs st c2 (xs.filter lifelogValid)).1 := by
  induction xs generalizing st c c2 with
  | nil => simp [processLifelogs]
  | cons l rest ih =>
    by_cases hv : lifelogValid l = true
    · simp only [processLifelogs, List.filter_cons, hv, if_pos]
      rw [processLifelog_fst_counts st c c2 l]
      exact ih _ _ _
    · have hvf : lifelogValid l = false := by simpa using hv
      have h := processLifelog_invalid st c l hvf
      simp only [processLifelogs, List.filter_cons, hvf, if_neg, h, Bool.false_eq_true,
        ite_false]
      exact ih _ _ _

theorem processConvo_sum (st : BeeState) (c : Counts) (lat : Int) (cv : Convo) :
    (processConvo st c lat cv).2.1.newEntries + (processConvo st c lat cv).2.1.updatedEntries
      + (processConvo st c lat cv).2.1.errors
    = c.newEntries + c.updatedEntries + c.errors + 1 := by
  unfold processConvo
  dsimp only
  split
  · split
    · simp
      omega
    · split <;> simp <;> omega
  · simp
    omega

theorem processFact_sum (st : BeeState) (c : Counts) (lat : Int) (f : Fact) :
    (processFact st c lat f).2.1.newEntries + (processFact st c lat f).2.1.updatedEntries
      + (processFact st c lat f).2.1.errors
    = c.newEntries + c.updatedEntries + c.errors + 1 := by
  unfold processFact
  dsimp only
  split
  · split
    · simp
      omega
    · split <;> simp <;> omega
  · simp
    omega

theorem processTodo_sum (st : BeeState) (c : Counts) (lat : Int) (t : Todo) :
    (processTodo st c lat t).2.1.newEntries + (processTodo st c lat t).2.1.updatedEntries
      + (processTodo st c lat t).2.1.errors
    = c.newEntries + c.updatedEntries + c.errors + 1 := by
  unfold processTodo
  dsimp only
  split
  · split
    · simp
      omega
    · split
      · simp
        omega
      · split <;> simp <;> omega
  · simp
    omega

theorem processLoc_sum (st : BeeState) (c : Counts) (lat : Int) (l : BeeLoc) :
    (processLoc st c lat l).2.1.newEntries + (processLoc st c lat l).2.1.updatedEntries
      + (processLoc st c lat l).2.1.errors
    = c.newEntries + c.updatedEntries + c.errors + 1 := by
  unfold processLoc
  dsimp only
  split
  · split
    · simp
      omega
    · split <;> simp <;> omega
  · simp
    omega

theorem processConvosLoop_sum (xs : List Convo) (st : BeeState) (c : Counts) (lat : Int) :
    (processConvosLoop st c lat xs).2.1.newEntries
      + (processConvosLoop st c lat xs).2.1.updatedEntries
      + (processConvosLoop st c lat xs).2.1.errors
    = c.newEntries + c.updatedEntries + c.errors + xs.length := by
  induction xs generalizing st c lat with
  | nil => simp [processConvosLoop]
  | cons x rest ih =>
    have h := processConvo_sum st c lat x
    simp only [processConvosLoop]
    rw [ih]
    simp only [List.length_cons]
    omega

theorem processFactsLoop_sum (xs : List Fact) (st : BeeState) (c : Counts) (lat : Int) :
    (processFactsLoop st c lat xs).2.1.newEntries
      + (processFactsLoop st c lat xs).2.1.updatedEntries
      + (processFactsLoop st c lat xs).2.1.errors
    = c.newEntries + c.updatedEntries + c.errors + xs.length := by
  induction xs generalizing st c lat with
  | nil => simp [processFactsLoop]
  | cons x rest ih =>
    have h := processFact_sum st c lat x
    simp only [processFactsLoop]
    rw [ih]
    simp only [List.length_cons]
    omega

theorem processTodosLoop_sum (xs : List Todo) (st : BeeState) (c : Counts) (lat : Int) :
    (processTodosLoop st c lat xs).2.1.newEntries
      + (processTodosLoop st c lat xs).2.1.updatedEntries
      + (processTodosLoop st c lat xs).2.1.errors
    = c.newEntries + c.updatedEntries + c.errors + xs.length := by
  induction xs generalizing st c lat with
  | nil => simp [processTodosLoop]
  | cons x rest ih =>
    have h := processTodo_sum st c lat x
    simp only [processTodosLoop]
    rw [ih]
    simp only [List.length_cons]
    omega

theorem processLocsLoop_sum (xs : List BeeLoc) (st : BeeState) (c : Counts) (lat : Int) :
    (processLocsLoop st c lat xs).2.1.newEntries
      + (processLocsLoop st c lat xs).2.1.updatedEntries
      + (processLocsLoop st c lat xs).2.1.errors
    = c.newEntries + c.updatedEntries + c.errors + xs.length := by
  induction xs generalizing st c lat with
  | nil => simp [processLocsLoop]
  | cons x rest ih =>
    have h := processLoc_sum st c lat x
    simp only [processLocsLoop]
    rw [ih]
    simp only [List.length_cons]
    omega

theorem processConversations_sum (st : BeeState) (xs : List Convo) (cur : Int) :
    (processConversations st xs cur).2.1.newEntries
      + (processConversations st xs cur).2.1.updatedEntries
      + (processConversations st xs cur).2.1.errors = xs.length := by
  unfold processConversations
  dsimp only
  rw [processConvosLoop_sum]
  simp

theorem processFacts_sum (st : BeeState) (xs : List Fact) (cur : Int) :
    (processFacts st xs cur).2.1.newEntries
      + (processFacts st xs cur).2.1.updatedEntries
      + (processFacts st xs cur).2.1.errors = xs.length := by
  unfold processFacts
  dsimp only
  rw [processFactsLoop_sum]
  simp

theorem processTodos_sum (st : BeeState) (xs : List Todo) (cur : Int) :
    (processTodos st xs cur).2.1.newEntries
      + (processTodos st xs cur).2.1.updatedEntries
      + (processTodos st xs cur).2.1.errors = xs.length := by
  unfold processTodos
  dsimp only
  rw [processTodosLoop_sum]
  simp

theorem processLocations_sum (st : BeeState) (xs : List BeeLoc) (cur : Int) :
    (processLocations st xs cur).2.1.newEntries
      + (processLocations st xs cur).2.1.updatedEntries
      + (processLocations st xs cur).2.1.errors = xs.length := by
  unfold processLocations
  dsimp only
  rw [processLocsLoop_sum]
  simp

theorem beeStage_sum {γ : Type} (proc : BeeState → List γ → Int → BeeState × Counts × Int)
    (xs : List γ) (r : BeeState × Counts × Int)
    (hp : ∀ st cur, (proc st xs cur).2.1.newEntries + (proc st xs cur).2.1.updatedEntries
        + (proc st xs cur).2.1.errors = xs.length) :
    (beeStage proc xs r).2.1.newEntries + (beeStage proc xs r).2.1.updatedEntries
      + (beeStage proc xs r).2.1.errors
    = r.2.1.newEntries + r.2.1.updatedEntries + r.2.1.errors + xs.length := by
  unfold beeStage
  by_cases h : xs.isEmpty
  · have hlen : xs.length = 0 := by
      rw [List.isEmpty_iff] at h
      simp [h]
    simp [h, hlen]
  · have hs := hp r.1 r.2.2
    simp only [h, ite_false, Bool.false_eq_true]
    omega

theorem beeRunSubs_sum (st : BeeState) (d : BeeData) :
    (beeRunSubs st d).2.1.newEntries + (beeRunSubs st d).2.1.updatedEntries
      + (beeRunSubs st d).2.1.errors
    = d.conversations.length + d.facts.length + d.todos.length + d.locations.length := by
  unfold beeRunSubs
  rw [beeStage_sum _ _ _ (fun st2 cur => processLocations_sum st2 d.locations cur)]
  rw [beeStage_sum _ _ _ (fun st2 cur => processTodos_sum st2 d.todos cur)]
  rw [beeStage_sum _ _ _ (fun st2 cur => processFacts_sum st2 d.facts cur)]
  rw [beeStage_sum _ _ _ (fun st2 cur => processConversations_sum st2 d.conversations cur)]
  simp [czero]

theorem processUtterances_wm (us : List Utt) (cid : Nat) (st : BeeState) :
    (processUtterances cid st us).wm = st.wm := by
  induction us generalizing st with
  | nil => rfl
  | cons u rest ih =>
    unfold processUtterances
    dsimp only
    split
    · rw [ih]
      split_ifs <;> rfl
    · rw [ih]

theorem processConvo_wm (st : BeeState) (c : Counts) (lat : Int) (cv : Convo) :
    (processConvo st c lat cv).1.wm = st.wm := by
  unfold processConvo
  dsimp only
  split
  · split
    · rfl
    · split <;> (repeat' split) <;> simp [processUtterances_wm]
  · rfl

theorem processConvosLoop_wm (xs : List Convo) (st : BeeState) (c : Counts) (lat : Int) :
    (processConvosLoop st c lat xs).1.wm = st.wm := by
  induction xs generalizing st c lat with
  | nil => rfl
  | cons x rest ih =>
    simp only [processConvosLoop]
    rw [ih, processConvo_wm]

theorem processConversations_wm (st : BeeState) (xs : List Convo) (cur : Int) :
    (processConversations st xs cur).1.wm = st.wm := by
  unfold processConversations
  dsimp only
  rw [processConvosLoop_wm]

theorem processFact_wm (st : BeeState) (c : Counts) (lat : Int) (f : Fact) :
    (processFact st c lat f).1.wm = st.wm := by
  unfold processFact
  dsimp only
  split
  · split
    · rfl
    · split <;> rfl
  · rfl

theorem processFactsLoop_wm (xs : List Fact) (st : BeeState) (c : Counts) (lat : Int) :
    (processFactsLoop st c lat xs).1.wm = st.wm := by
  induction xs generalizing st c lat with
  | nil => rfl
  | cons x rest ih =>
    simp only [processFactsLoop]
    rw [ih, processFact_wm]

theorem processFacts_wm (st : BeeState) (xs : List Fact) (cur : Int) :
    (processFacts st xs cur).1.wm = st.wm := by
  unfold processFacts
  dsimp only
  rw [processFactsLoop_wm]

theorem processTodo_wm (st : BeeState) (c : Counts) (lat : Int) (t : Todo) :
    (processTodo st c lat t).1.wm = st.wm := by
  unfold processTodo
  dsimp only
  split
  · split
    · rfl
    · split
      · rfl
      · split <;> rfl
  · rfl

theorem processTodosLoop_wm (xs : List Todo) (st : BeeState) (c : Counts) (lat : Int) :
    (processTodosLoop st c lat xs).1.wm = st.wm := by
  induction xs generalizing st c lat with
  | nil => rfl
  | cons x rest ih =>
    simp only [processTodosLoop]
    rw [ih, processTodo_wm]

theorem processTodos_wm (st : BeeState) (xs : List Todo) (cur : Int) :
    (processTodos st xs cur).1.wm = st.wm := by
  unfold processTodos
  dsimp only
  rw [processTodosLoop_wm]

theorem processLoc_wm (st : BeeState) (c : Counts) (lat : Int) (l : BeeLoc) :
    (processLoc st c lat l).1.wm = st.wm := by
  unfold processLoc
  dsimp only
  split
  · split
    · rfl
    · split <;> rfl
  · rfl

theorem processLocsLoop_wm (xs : List BeeLoc) (st : BeeState) (c : Counts) (lat : Int) :
    (processLocsLoop st c lat xs).1.wm = st.wm := by
  induction xs generalizing st c lat with
  | nil => rfl
  | cons x rest ih =>
    simp only [processLocsLoop]
    rw [ih, processLoc_wm]

theorem processLocations_wm (st : BeeState) (xs : List BeeLoc) (cur : Int) :
    (processLocations st xs cur).1.wm = st.wm := by
  unfold processLocations
  dsimp only
  rw [processLocsLoop_wm]

theorem beeStage_wm {γ : Type} (proc : BeeState → List γ → Int → BeeState × Counts × Int)
    (xs : List γ) (r : BeeState × Counts × Int)
    (hp : ∀ st cur, (proc st xs cur).1.wm = st.wm) :
    (beeStage proc xs r).1.wm = r.1.wm := by
  unfold beeStage
  by_cases h : xs.isEmpty
  · simp [h]
  · simp only [h, ite_false, Bool.false_eq_true]
    exact hp r.1 r.2.2

theorem beeRunSubs_wm (st : BeeState) (d : BeeData) :
    (beeRunSubs st d).1.wm = st.wm := by
  unfold beeRunSubs
  rw [beeStage_wm _ _ _ (fun st2 cur => processLocations_wm st2 d.locations cur)]
  rw [beeStage_wm _ _ _ (fun st2 cur => processTodos_wm st2 d.todos cur)]
  rw [beeStage_wm _ _ _ (fun st2 cur => processFacts_wm st2 d.facts cur)]
  rw [beeStage_wm _ _ _ (fun st2 cur => processConversations_wm st2 d.conversations cur)]

theorem processConvo_invalid (st : BeeState) (c : Counts) (lat : Int) (cv : Convo)
    (h : convoValid cv = false) :
    processConvo st c lat cv
      = (st, { c with errors := c.errors + 1 }, bumpLatest lat (convoTimestamp cv)) := by
  unfold processConvo mkConvoEntry
  unfold convoValid at h
  dsimp only
  cases hid : cv.id with
  | none => simp
  | some key =>
    cases hs : jsDate (tsOr cv.start_time cv.startTime) with
    | none => simp [hs]
    | some s =>
      cases he : jsDate (tsOr cv.end_time cv.endTime) with
      | none => simp [hs, he]
      | some e =>
        rw [hid, hs, he] at h
        simp [strTruthy] at h
        simp [hs, he, h]

theorem processConvo_valid_counts (st : BeeState) (c : Counts) (lat : Int) (cv : Convo)
    (h : convoValid cv = true) :
    (processConvo st c lat cv).2.1.errors = c.errors ∧
    (processConvo st c lat cv).2.1.newEntries + (processConvo st c lat cv).2.1.updatedEntries
      = c.newEntries + c.updatedEntries + 1 := by
  unfold convoValid at h
  simp only [Bool.and_eq_true] at h
  obtain ⟨⟨hid, hs⟩, he⟩ := h
  cases hid2 : cv.id with
  | none => rw [hid2] at hid; simp [strTruthy] at hid
  | some key =>
    rw [hid2] at hid
    simp [strTruthy] at hid
    obtain ⟨s, hs2⟩ := Option.isSome_iff_exists.mp hs
    obtain ⟨e, he2⟩ := Option.isSome_iff_exists.mp he
    unfold processConvo mkConvoEntry
    dsimp only
    simp only [hid2, hs2, he2]
    rw [if_neg hid]
    cases hl : lookupA st.convos key <;> (repeat' split) <;> simp <;> omega

theorem processConvo_fst (st : BeeState) (c c2 : Counts) (lat lat2 : Int) (cv : Convo) :
    (processConvo st c lat cv).1 = (processConvo st c2 lat2 cv).1 := by
  unfold processConvo mkConvoEntry
  dsimp only
  cases hid : cv.id with
  | none => simp
  | some key =>
    cases hs : jsDate (tsOr cv.start_time cv.startTime) with
    | none => simp
    | some s =>
      cases he : jsDate (tsOr cv.end_time cv.endTime) with
      | none => simp
      | some e =>
        by_cases hk : key = ""
        · simp [hk]
        · simp only [if_neg hk]
          cases hl : lookupA st.convos key <;> simp

theorem processConvosLoop_errors (xs : List Convo) (st : BeeState) (c : Counts) (lat : Int) :
    (processConvosLoop st c lat xs).2.1.errors
      = c.errors + xs.countP (fun cv => !convoValid cv) := by
  induction xs generalizing st c lat with
  | nil => simp [processConvosLoop]
  | cons x rest ih =>
    simp only [processConvosLoop]
    rw [ih]
    by_cases hv : convoValid x = true
    · have h := (processConvo_valid_counts st c lat x hv).1
      simp [List.countP_cons, hv, h]
    · have hvf : convoValid x = false := by simpa using hv
      have h := processConvo_invalid st c lat x hvf
      simp [List.countP_cons, hvf, h]
      omega

theorem processConvosLoop_filter_fst (xs : List Convo) (st : BeeState) (c c2 : Counts)
    (lat lat2 : Int) :
    (processConvosLoop st c lat xs).1
      = (processConvosLoop st c2 lat2 (xs.filter convoValid)).1 := by
  induction xs generalizing st c c2 lat lat2 with
  | nil => simp [processConvosLoop]
  | cons x rest ih =>
    by_cases hv : convoValid x = true
    · simp only [processConvosLoop, List.filter_cons, hv, if_pos]
      rw [processConvo_fst st c c2 lat lat2 x]
      exact ih _ _ _ _ _
    · have hvf : convoValid x = false := by simpa using hv
      have h := processConvo_invalid st c lat x hvf
      simp only [processConvosLoop, List.filter_cons, hvf, h, Bool.false_eq_true, ite_false]
      exact ih _ _ _ _ _

theorem insertContentNodes_entries (eid : Nat) :
    ∀ (pid : Option Nat) (st : LState) (ns : List CNode),
      (insertContentNodes eid pid st ns).entries = st.entries := by
  apply insertContentNodes.induct eid
    (fun pid st n => (insertContentNode eid pid st n).entries = st.entries)
    (fun pid st ns => (insertContentNodes eid pid st ns).entries = st.entries)
  · intro pid st d children h1 h2
    simp [insertContentNode, h1, h2]
  · intro pid st d children h1
    intro dbId st1 hne ih
    simp only [insertContentNode, h1, if_pos, ite_true, hne, ite_false, Bool.false_eq_true]
    rw [ih]
  · intro pid st d children h1
    simp [insertContentNode, h1]
  · intro pid st
    simp [insertContentNodes]
  · intro pid st n rest ih1 ih2
    simp only [insertContentNodes]
    rw [ih2, ih1]

theorem processLifelog_insert (st : LState) (c : Counts) (l : Lifelog) (k : String)
    (s e : Int) (hk : l.id = some k) (hkne : k ≠ "") (hs : lifelogStart l = some s)
    (he : lifelogEnd l = some e) (hfresh : lookupA st.entries k = none) :
    (processLifelog st c l).2 = { c with newEntries := c.newEntries + 1 }
    ∧ (processLifelog st c l).1.entries
        = st.entries ++ [(k, entryFromLifelog l s e st.nextId)] := by
  unfold processLifelog
  simp only [hk, hs, he]
  rw [if_neg hkne, hfresh]
  dsimp only
  cases hc : l.contents with
  | none => exact ⟨rfl, rfl⟩
  | some cs =>
    refine ⟨rfl, ?_⟩
    rw [insertContentNodes_entries]

theorem processLifelog_update (st : LState) (c : Counts) (l : Lifelog) (k : String)
    (s e : Int) (old : LEntryRow) (hk : l.id = some k) (hkne : k ≠ "")
    (hs : lifelogStart l = some s) (he : lifelogEnd l = some e)
    (hfound : lookupA st.entries k = some old) :
    (processLifelog st c l).2 = { c with updatedEntries := c.updatedEntries + 1 }
    ∧ (processLifelog st c l).1.entries
        = updateA st.entries k (entryFromLifelog l s e old.dbId) := by
  unfold processLifelog
  simp only [hk, hs, he]
  rw [if_neg hkne, hfound]
  dsimp only
  cases hc : l.contents with
  | none => exact ⟨rfl, rfl⟩
  | some cs =>
    refine ⟨rfl, ?_⟩
    rw [insertContentNodes_entries]

/-! Claim theorems. -/

/-- C1, counterexample: the Limitless watermark is not monotone.  With the
stored watermark at instant 100, processing a successfully upserted batch
whose latest modification instant is 50 overwrites the watermark with 50,
an instant strictly earlier than the stored value. -/
theorem limitless_watermark_regresses :
    lStW.wm = 100
    ∧ (limitlessProcessData lStW [recW]).1.wm = 50
    ∧ (limitlessProcessData lStW [recW]).2
        = Except.ok { newEntries := 1, updatedEntries := 0, errors := 0 }
    ∧ ¬ (100 : Int) ≤ 50 := by
  refine ⟨rfl, rfl, rfl, by decide⟩

/-- C1, amended: the Bee connector advances its watermark only when the
candidate is strictly later, so its stored watermark is non-decreasing across
any processData run; and a run whose fetch fails fatally (the Limitless walker
rethrows) leaves the state, watermark included, equal to its pre-run value.
The Limitless watermark update itself is an unconditional overwrite and can
move the watermark backwards. -/
theorem watermark_amended :
    (∀ (st : BeeState) (d : BeeData), st.wm ≤ (beeProcessData st d).1.wm)
    ∧ (∀ st : LState, limitlessSync fetchFatal st
        = (st, { success := false, newEntries := 0, updatedEntries := 0, errors := 1 })) := by
  constructor
  · intro st d
    unfold beeProcessData
    dsimp only
    by_cases hl : (beeRunSubs st d).2.2 > st.wm
    · simp only [hl, ite_true]
      split
      · rw [foldl_beeAggStep]
        dsimp only
        omega
      · dsimp only
        omega
    · simp only [hl, ite_false]
      split
      · rw [foldl_beeAggStep, beeRunSubs_wm]
      · rw [beeRunSubs_wm]
  · intro st
    have hw : limitlessWalk fetchFatal 50 10 = Except.error "network unreachable" := by
      simp [limitlessWalk, limitlessWalkAux, fetchFatal]
    simp [limitlessSync, hw]

/-- C2, counterexample: two records of one batch sharing external id 42 are
both counted, the first as an insert and the second as an update, so the
reconciler reports two outcomes for the key, not exactly one.  The final
stored row does hold the values of the second record. -/
theorem duplicate_key_double_counted :
    (processLifelogs lSt0 czero [llDupA, llDupB]).2
      = { newEntries := 1, updatedEntries := 1, errors := 0 }
    ∧ lookupA (processLifelogs lSt0 czero [llDupA, llDupB]).1.entries "42"
        = some (entryFromLifelog llDupB 40 45 1)
    ∧ 1 + 1 ≠ 1 := by
  refine ⟨rfl, rfl, by decide⟩

/-- C2, amended: for any batch of two valid records sharing one fresh
external id, the final store keeps exactly the second record's field values
under that key (last write wins), while the reconciler reports one insert and
one update for the key, counting each occurrence rather than each key. -/
theorem duplicate_key_amended (st : LState) (r1 r2 : Lifelog) (k : String)
    (s1 e1 s2 e2 : Int)
    (hk1 : r1.id = some k) (hk2 : r2.id = some k) (hkne : k ≠ "")
    (hs1 : lifelogStart r1 = some s1) (he1 : lifelogEnd r1 = some e1)
    (hs2 : lifelogStart r2 = some s2) (he2 : lifelogEnd r2 = some e2)
    (hfresh : lookupA st.entries k = none) :
    (processLifelogs st czero [r1, r2]).2
      = { newEntries := 1, updatedEntries := 1, errors := 0 }
    ∧ lookupA (processLifelogs st czero [r1, r2]).1.entries k
        = some (entryFromLifelog r2 s2 e2 st.nextId) := by
  obtain ⟨hc1, he1e⟩ := processLifelog_insert st czero r1 k s1 e1 hk1 hkne hs1 he1 hfresh
  have hlook1 : lookupA (processLifelog st czero r1).1.entries k
      = some (entryFromLifelog r1 s1 e1 st.nextId) := by
    rw [he1e, lookupA_append _ _ _ hfresh]
    simp [lookupA]
  obtain ⟨hc2, he2e⟩ := processLifelog_update (processLifelog st czero r1).1
    (processLifelog st czero r1).2 r2 k s2 e2 (entryFromLifelog r1 s1 e1 st.nextId)
    hk2 hkne hs2 he2 hlook1
  have hdb : (entryFromLifelog r1 s1 e1 st.nextId).dbId = st.nextId := rfl
  rw [hdb] at he2e
  have hstep : processLifelogs st czero [r1, r2]
      = ((processLifelog (processLifelog st czero r1).1 (processLifelog st czero r1).2 r2).1,
         (processLifelog (processLifelog st czero r1).1 (processLifelog st czero r1).2 r2).2) := by
    simp [processLifelogs]
  constructor
  · rw [hstep]
    dsimp only
    rw [hc2, hc1]
    simp [czero]
  · rw [hstep]
    dsimp only
    rw [he2e, he1e]
    rw [updateA_append _ _ _ _ ]
    rw [lookupA_none_updateA _ _ _ hfresh]
    rw [lookupA_append _ _ _ hfresh]
    simp [updateA, lookupA]

/-- C2, witness for the amended theorem at a concrete two-record batch. -/
theorem duplicate_key_amended_witness :
    (processLifelogs lSt0 czero [llDupA, llDupB]).2
      = { newEntries := 1, updatedEntries := 1, errors := 0 }
    ∧ lookupA (processLifelogs lSt0 czero [llDupA, llDupB]).1.entries "42"
        = some (entryFromLifelog llDupB 40 45 lSt0.nextId) :=
  duplicate_key_amended lSt0 llDupA llDupB "42" 40 45 40 45
    rfl rfl (by decide) rfl rfl rfl rfl rfl

/-- C3, code bug: the daily rollup is never persisted.  The SQL the code
builds implements exactly the take-the-larger merge (last conjunct, with day
20240 standing for 2025-06-01: applying 3 then 1 would leave the stored count
at 3), but the module's db require is commented out, so both calls return with
the store unchanged and no row for the day ever exists, hence the stored count
after apply(3) followed by apply(1) is not 3. -/
theorem rollup_merge_never_persisted :
    updateDailyAggregation [] (DateArg.parsed 20240) (some "limitless") 3 = Except.ok []
    ∧ updateDailyAggregation [] (DateArg.parsed 20240) (some "limitless") 1 = Except.ok []
    ∧ lookupAgg [] 20240 = none
    ∧ lookupAgg (dailyAggregationSqlUpsert
          (dailyAggregationSqlUpsert [] 20240 "limitless" 3) 20240 "limitless" 1) 20240
        = some { emptyAggRow with has_limitless_data := true, limitless_entry_count := 3 } := by
  refine ⟨rfl, rfl, rfl, rfl⟩

/-- C4, counterexample: re-processing the same Limitless content node for the
same parent entry inserts a second row (the table has no conflict key for
children), so redelivery is not a no-op. -/
theorem content_node_redelivery_duplicates :
    (insertContentNodes 7 none
        (insertContentNodes 7 none lSt0 [CNode.mk cnFlat []]) [CNode.mk cnFlat []]).nodes.length
      = 2
    ∧ 2 ≠ 1 := by
  constructor
  · simp [insertContentNodes, insertContentNode, nodeTsOk, cnFlat, lSt0]
  · decide

/-- C4, amended: a Bee utterance redelivered with the same (conversation,
utterance id) key is a no-op thanks to ON CONFLICT DO NOTHING, with no error;
a Limitless content node is re-inserted unconditionally on each redelivery of
its parent entry, producing a duplicate row (also without error). -/
theorem child_redelivery_amended :
    (∀ (st : BeeState) (cid : Nat) (u : Utt) (k : String) (t : Int),
        strOr u.id u.utterance_id = some k → k ≠ "" →
        jsDate (tsOr u.spoken_at u.timestamp) = some t →
        (st.utts.any (fun r => r.conversation_id = cid && r.bee_utterance_id = k)) = true →
        processUtterances cid st [u] = st)
    ∧ (∀ (st : LState) (eid : Nat) (pid : Option Nat) (d : CNodeData),
        nodeTsOk d = true →
        (insertContentNodes eid pid
            (insertContentNodes eid pid st [CNode.mk d []]) [CNode.mk d []]).nodes.length
          = st.nodes.length + 2) := by
  constructor
  · intro st cid u k t hk hkne ht hmem
    unfold processUtterances
    simp only [mkUtteranceEntry, hk, ht]
    rw [if_neg hkne]
    simp only [hmem, ite_true]
    rfl
  · intro st eid pid d hok
    simp [insertContentNodes, insertContentNode, hok]

/-- C4, witness for the amended theorem: redelivering the same utterance to a
state that already holds it leaves the store unchanged, and redelivering a
flat content node to a fresh state yields two rows. -/
theorem child_redelivery_amended_witness :
    processUtterances 3 (processUtterances 3 bSt0 [uttPlain]) [uttPlain]
      = processUtterances 3 bSt0 [uttPlain]
    ∧ (insertContentNodes 7 none
        (insertContentNodes 7 none lSt0 [CNode.mk cnFlat []]) [CNode.mk cnFlat []]).nodes.length
      = lSt0.nodes.length + 2 :=
  ⟨child_redelivery_amended.1 (processUtterances 3 bSt0 [uttPlain]) 3 uttPlain "u1" 5
      rfl (by decide) rfl (by decide),
   child_redelivery_amended.2 lSt0 7 none cnFlat rfl⟩

/-- C5, counterexample: a fetched batch of two records, one valid and one with
an unparsable start timestamp, makes processData throw a RangeError after the
record loop (the affected-dates expression maps over every fetched record), so
the sync reports a failed result whose counters 0, 0, 1 do not add up to the
two records fetched. -/
theorem counts_partition_cex :
    limitlessWalk fetchMixed 50 10 = Except.ok [llDupA, llBadStart]
    ∧ (limitlessSync fetchMixed lSt0).2
        = { success := false, newEntries := 0, updatedEntries := 0, errors := 1 }
    ∧ 0 + 0 + 1 ≠ 2 := by
  have hw : limitlessWalk fetchMixed 50 10 = Except.ok [llDupA, llBadStart] := by
    simp [limitlessWalk, limitlessWalkAux, fetchMixed]
  refine ⟨hw, ?_, by decide⟩
  simp only [limitlessSync, hw]
  rfl

/-- C5, amended: whenever every record of the batch has a parseable start
timestamp (in particular whenever processData returns counts at all), the
reported counters partition the batch: newEntries plus updatedEntries plus
errors equals the number of records handed to processData, for the Limitless
connector and for the Bee connector alike. -/
theorem counts_partition_amended :
    (∀ (st : LState) (batch : List Lifelog),
        (∀ l ∈ batch, (lifelogStart l).isSome) →
        (limitlessProcessData st batch).2.map
            (fun c => c.newEntries + c.updatedEntries + c.errors)
          = Except.ok batch.length)
    ∧ (∀ (st : BeeState) (d : BeeData),
        (∀ cv ∈ d.conversations, (convoStartDay cv).isSome) →
        (beeProcessData st d).2.map (fun c => c.newEntries + c.updatedEntries + c.errors)
          = Except.ok (d.conversations.length + d.facts.length + d.todos.length
              + d.locations.length)) := by
  constructor
  · intro st batch hall
    unfold limitlessProcessData
    by_cases hemp : batch.isEmpty
    · have : batch = [] := List.isEmpty_iff.mp hemp
      simp [this, Except.map]
    · have hallb : batch.all (fun l => (lifelogStart l).isSome) = true := by
        rw [List.all_eq_true]
        intro x hx
        simpa using hall x hx
      have hsum := processLifelogs_sum batch st
        { newEntries := 0, updatedEntries := 0, errors := 0 }
      simp only [hemp, Bool.false_eq_true, ite_false]
      split
      · simp only [hallb, ite_true, Except.map]
        rw [hsum]
        simp
      · simp only [Except.map]
        rw [hsum]
        simp
  · intro st d hall
    unfold beeProcessData
    have hallb : d.conversations.all (fun cv => (convoStartDay cv).isSome) = true := by
      rw [List.all_eq_true]
      intro x hx
      simpa using hall x hx
    have hsum := beeRunSubs_sum st d
    simp only [hallb, ite_true, Except.map]
    rw [hsum]

/-- C5, witness for the amended theorem on concrete batches whose start
timestamps all parse. -/
theorem counts_partition_amended_witness :
    (limitlessProcessData lSt0 [llDupA, llDupB]).2.map
        (fun c => c.newEntries + c.updatedEntries + c.errors)
      = Except.ok ([llDupA, llDupB] : List Lifelog).length
    ∧ (beeProcessData bSt0 bdPlain).2.map
        (fun c => c.newEntries + c.updatedEntries + c.errors)
      = Except.ok (bdPlain.conversations.length + bdPlain.facts.length
          + bdPlain.todos.length + bdPlain.locations.length) :=
  ⟨counts_partition_amended.1 lSt0 [llDupA, llDupB] (by decide),
   counts_partition_amended.2 bSt0 bdPlain (by decide)⟩

theorem processLifelogs_newupd (xs : List Lifelog) (st : LState) (c : Counts) :
    (processLifelogs st c xs).2.newEntries + (processLifelogs st c xs).2.updatedEntries
      = c.newEntries + c.updatedEntries + xs.countP (fun l => lifelogValid l) := by
  induction xs generalizing st c with
  | nil => simp [processLifelogs]
  | cons l rest ih =>
    simp only [processLifelogs]
    rw [ih]
    by_cases hv : lifelogValid l = true
    · have h := (processLifelog_valid_counts st c l hv).2
      simp [List.countP_cons, hv]
      omega
    · have hvf : lifelogValid l = false := by simpa using hv
      have h := processLifelog_invalid st c l hvf
      simp [List.countP_cons, hvf, h]

theorem processConvosLoop_newupd (xs : List Convo) (st : BeeState) (c : Counts) (lat : Int) :
    (processConvosLoop st c lat xs).2.1.newEntries
      + (processConvosLoop st c lat xs).2.1.updatedEntries
      = c.newEntries + c.updatedEntries + xs.countP (fun cv => convoValid cv) := by
  induction xs generalizing st c lat with
  | nil => simp [processConvosLoop]
  | cons x rest ih =>
    simp only [processConvosLoop]
    rw [ih]
    by_cases hv : convoValid x = true
    · have h := (processConvo_valid_counts st c lat x hv).2
      simp [List.countP_cons, hv]
      omega
    · have hvf : convoValid x = false := by simpa using hv
      have h := processConvo_invalid st c lat x hvf
      simp [List.countP_cons, hvf, h]

/-- C6, counterexample: a Limitless page short of the limit but carrying a
non-null next cursor does not stop the walker; it fetches the next page and
returns 62 items, where stopping at the short page would have returned 12. -/
theorem walker_short_page_cex :
    (limitlessWalk fetchShortWithCursor 50 10).map List.length = Except.ok 62
    ∧ (62 : Nat) ≠ 12 := by
  constructor
  · simp [limitlessWalk, limitlessWalkAux, fetchShortWithCursor, Except.map]
  · decide

/-- C6, amended: the Bee walker stops on a short page, so for pages of 50, 50
and 12 items at limit 50 it stops after page 3 (the fetcher is arbitrary past
page 3, so no further page is consulted) and returns exactly the 112
accumulated items; the Limitless walker stops when the next cursor is null,
when a page is empty, or at the maxPages bound, but a short page alone does
not stop it. -/
theorem walker_stop_amended :
    (∀ (f : Nat → Except String (List Nat)) (l1 l2 l3 : List Nat),
        f 1 = Except.ok l1 → f 2 = Except.ok l2 → f 3 = Except.ok l3 →
        l1.length = 50 → l2.length = 50 → l3.length = 12 →
        beeWalk f 50 10 = l1 ++ l2 ++ l3 ∧ (l1 ++ l2 ++ l3).length = 112)
    ∧ (∀ (g : Option String → Except String (LPage Nat)) (items : List Nat),
        g none = Except.ok { items := items, nextCursor := none } → items ≠ [] →
        limitlessWalk g 50 10 = Except.ok items) := by
  constructor
  · intro f l1 l2 l3 h1 h2 h3 len1 len2 len3
    have ne1 : l1.isEmpty = false := by
      cases l1 with
      | nil => exact absurd len1 (by decide)
      | cons a t => rfl
    have ne2 : l2.isEmpty = false := by
      cases l2 with
      | nil => exact absurd len2 (by decide)
      | cons a t => rfl
    have ne3 : l3.isEmpty = false := by
      cases l3 with
      | nil => exact absurd len3 (by decide)
      | cons a t => rfl
    constructor
    · simp [beeWalk, beeWalkAux, h1, h2, h3, len1, len2, len3, ne1, ne2, ne3]
    · simp [len1, len2, len3]
  · intro g items hg hne
    have ne : items.isEmpty = false := by
      cases items with
      | nil => exact absurd rfl hne
      | cons a t => rfl
    by_cases hl : items.length < 50 <;>
      simp [limitlessWalk, limitlessWalkAux, hg, ne, hl]

/-- C6, witness for the amended theorem at a concrete three-page fetcher and a
concrete single-page fetcher. -/
theorem walker_stop_amended_witness :
    beeWalk fetchBee3 50 10
        = List.replicate 50 1 ++ List.replicate 50 2 ++ List.replicate 12 3
    ∧ (List.replicate 50 1 ++ List.replicate 50 2 ++ (List.replicate 12 3 : List Nat)).length
        = 112
    ∧ limitlessWalk fetchOnePageNat 50 10 = Except.ok [5] := by
  obtain ⟨hb, hlen⟩ := walker_stop_amended.1 fetchBee3 (List.replicate 50 1)
    (List.replicate 50 2) (List.replicate 12 3) rfl rfl rfl (by simp) (by simp) (by simp)
  exact ⟨hb, hlen, walker_stop_amended.2 fetchOnePageNat [5] rfl (by decide)⟩

/-- C7, counterexample: when the Limitless fetch errors after one page has
been fetched, the error is rethrown: the accumulated records are discarded,
the run reports a hard failure, and nothing is processed or persisted (the
state is returned unchanged). -/
theorem partial_fetch_discarded_cex :
    limitlessWalk fetchThenFail 50 10 = Except.error "boom"
    ∧ limitlessSync fetchThenFail lSt0
        = (lSt0, { success := false, newEntries := 0, updatedEntries := 0, errors := 1 }) := by
  have hw : limitlessWalk fetchThenFail 50 10 = Except.error "boom" := by
    simp [limitlessWalk, limitlessWalkAux, fetchThenFail]
  exact ⟨hw, by simp [limitlessSync, hw]⟩

/-- C7, amended: the Bee walker swallows a mid-pagination fetch error and
returns the records accumulated so far, which are then processed (the error is
only logged, not surfaced in the result); the Limitless walker rethrows, so
the whole run fails and the already-fetched records are discarded. -/
theorem partial_fetch_amended :
    (∀ (f : Nat → Except String (List Nat)) (l1 : List Nat) (e : String),
        f 1 = Except.ok l1 → l1.length = 50 → f 2 = Except.error e →
        beeWalk f 50 10 = l1)
    ∧ (∀ (f : Option String → Except String (LPage Lifelog)) (st : LState) (e : String),
        limitlessWalk f 50 10 = Except.error e →
        limitlessSync f st
          = (st, { success := false, newEntries := 0, updatedEntries := 0, errors := 1 })) := by
  constructor
  · intro f l1 e h1 len1 h2
    have ne1 : l1.isEmpty = false := by
      cases l1 with
      | nil => exact absurd len1 (by decide)
      | cons a t => rfl
    simp [beeWalk, beeWalkAux, h1, h2, len1, ne1]
  · intro f st e hw
    simp [limitlessSync, hw]

/-- C7, witness for the amended theorem at concrete failing fetchers. -/
theorem partial_fetch_amended_witness :
    beeWalk fetchBeeThenFail 50 10 = List.replicate 50 7
    ∧ limitlessSync fetchThenFail lStW
        = (lStW, { success := false, newEntries := 0, updatedEntries := 0, errors := 1 }) := by
  refine ⟨partial_fetch_amended.1 fetchBeeThenFail (List.replicate 50 7) "boom" rfl
      (by simp) rfl,
    partial_fetch_amended.2 fetchThenFail lStW "boom" ?_⟩
  simp [limitlessWalk, limitlessWalkAux, fetchThenFail]

/-- C8: a record missing its external id or with an unparsable primary
timestamp is counted as an error; the valid records are the ones that yield an
insert or update outcome; and the resulting store is exactly the store
obtained from the valid records alone, so the rejected records are never
persisted and do not abort the processing of the rest of the batch.  Stated
for the Limitless record loop and the Bee conversation loop. -/
theorem rejected_records_skipped :
    (∀ (st : LState) (c : Counts) (batch : List Lifelog),
        (processLifelogs st c batch).2.errors
          = c.errors + batch.countP (fun l => !lifelogValid l))
    ∧ (∀ (st : LState) (c : Counts) (batch : List Lifelog),
        (processLifelogs st c batch).2.newEntries
            + (processLifelogs st c batch).2.updatedEntries
          = c.newEntries + c.updatedEntries + batch.countP (fun l => lifelogValid l))
    ∧ (∀ (st : LState) (c c2 : Counts) (batch : List Lifelog),
        (processLifelogs st c batch).1
          = (processLifelogs st c2 (batch.filter lifelogValid)).1)
    ∧ (∀ (st : BeeState) (c : Counts) (lat : Int) (batch : List Convo),
        (processConvosLoop st c lat batch).2.1.errors
          = c.errors + batch.countP (fun cv => !convoValid cv))
    ∧ (∀ (st : BeeState) (c : Counts) (lat : Int) (batch : List Convo),
        (processConvosLoop st c lat batch).2.1.newEntries
            + (processConvosLoop st c lat batch).2.1.updatedEntries
          = c.newEntries + c.updatedEntries + batch.countP (fun cv => convoValid cv))
    ∧ (∀ (st : BeeState) (c c2 : Counts) (lat lat2 : Int) (batch : List Convo),
        (processConvosLoop st c lat batch).1
          = (processConvosLoop st c2 lat2 (batch.filter convoValid)).1) :=
  ⟨fun st c batch => processLifelogs_errors batch st c,
   fun st c batch => processLifelogs_newupd batch st c,
   fun st c c2 batch => processLifelogs_filter_fst batch st c c2,
   fun st c lat batch => processConvosLoop_errors batch st c lat,
   fun st c lat batch => processConvosLoop_newupd batch st c lat,
   fun st c c2 lat lat2 batch => processConvosLoop_filter_fst batch st c c2 lat lat2⟩

/-- C9, counterexample: an utterance whose source omits is_realtime is
normalized with is_realtime true, not the type-appropriate zero value false
(and its omitted start_seconds stays null rather than 0). -/
theorem utterance_realtime_defaults_true :
    (mkUtteranceEntry 1 uttPlain).is_realtime = true
    ∧ (mkUtteranceEntry 1 uttPlain).start_seconds = none
    ∧ true ≠ false :=
  ⟨rfl, rfl, by decide⟩

/-- C9, amended: omitted boolean flags default to false for the lifelog
starred flag and the todo completed flag; the fact confirmation flag and the
utterance is_realtime flag default to true; and omitted numeric fields such as
an utterance's start offset are left null rather than zero. -/
theorem boolean_defaults_amended :
    (∀ (l : Lifelog) (s e : Int) (i : Nat), l.is_starred = none → l.isStarred = none →
        (entryFromLifelog l s e i).is_starred = false)
    ∧ (∀ t : Todo, t.completed = none → (mkTodoEntry t).completed = false)
    ∧ (∀ f : Fact, f.is_confirmed = none → (mkFactEntry f).is_confirmed = true)
    ∧ (∀ (u : Utt) (i : Nat), u.is_realtime = none → (mkUtteranceEntry i u).is_realtime = true)
    ∧ (∀ (u : Utt) (i : Nat), u.start_seconds = none → u.startOffsetSeconds = none →
        (mkUtteranceEntry i u).start_seconds = none) := by
  refine ⟨?_, ?_, ?_, ?_, ?_⟩
  · intro l s e i h1 h2
    simp [entryFromLifelog, flagOr, h1, h2]
  · intro t h
    simp [mkTodoEntry, flagOr, h]
  · intro f h
    simp [mkFactEntry, h]
  · intro u i h
    simp [mkUtteranceEntry, h]
  · intro u i h1 h2
    simp [mkUtteranceEntry, numOr, h1, h2]

/-- C9, witness for the amended theorem at concrete records omitting the
fields. -/
theorem boolean_defaults_amended_witness :
    (entryFromLifelog recW 40 45 1).is_starred = false
    ∧ (mkTodoEntry todoPlain).completed = false
    ∧ (mkFactEntry factPlain).is_confirmed = true
    ∧ (mkUtteranceEntry 2 uttPlain).is_realtime = true
    ∧ (mkUtteranceEntry 2 uttPlain).start_seconds = none :=
  ⟨boolean_defaults_amended.1 recW 40 45 1 rfl rfl,
   boolean_defaults_amended.2.1 todoPlain rfl,
   boolean_defaults_amended.2.2.1 factPlain rfl,
   boolean_defaults_amended.2.2.2.1 uttPlain 2 rfl,
   boolean_defaults_amended.2.2.2.2 uttPlain 2 rfl rfl⟩

/-- C10, counterexample: a present but unparsable date makes
updateDailyAggregation throw (the toISOString call sits before the try block),
so the function does propagate an exception to its caller. -/
theorem updateDailyAggregation_throws_on_bad_date :
    updateDailyAggregation [] (DateArg.unparsable "garbage") (some "limitless") 3
      = Except.error "RangeError: Invalid time value" := rfl

/-- C10, amended: the enumerated cases are indeed absorbed: a missing or falsy
date returns without effect, and for any parseable date the call returns the
store unchanged whatever the source type or count (the unknown-source branch
returns early and the store-update failure is swallowed by the catch); only a
present unparsable date escapes, throwing before the try block. -/
theorem updateDailyAggregation_absorbs_enumerated :
    (∀ (a : AggStore) (src : Option String) (n : Int),
        updateDailyAggregation a DateArg.missing src n = Except.ok a)
    ∧ (∀ (a : AggStore) (d : Int) (src : Option String) (n : Int),
        updateDailyAggregation a (DateArg.parsed d) src n = Except.ok a)
    ∧ (∀ (a : AggStore) (s : String) (n : Int),
        updateDailyAggregation a (DateArg.unparsable s) (some "limitless") n
          = Except.error "RangeError: Invalid time value") := by
  refine ⟨?_, ?_, ?_⟩
  · intro a src n
    unfold updateDailyAggregation
    simp
  · intro a d src n
    exact updateDailyAggregation_parsed a d src n
  · intro a s n
    unfold updateDailyAggregation
    simp [strTruthy]

end RTJ
